import Mathlib

/-!
Shallow embedding of the Authorization & Approval Workflow subsystem of
OSoC-25-Cloud-Craver: the RBAC engine (`src/auth/rbac.py`) and the approval
workflow (`src/workflows/approval.py`).

Modelling conventions:
- Python `dict`s are insertion-ordered association lists `List (String × α)`;
  `dictGet?` is `d[k]` lookup and `dictSet` is `d[k] = v` (replace in place if
  the key exists, else append), matching CPython dict semantics.
- Python `set`s of strings are `List String` used up to membership.
- Wall-clock timestamps (`datetime.now(timezone.utc)`) are `Nat` values passed
  in explicitly; `isoformat` round-trips them unchanged, so serialization
  keeps the `Nat`.
- Generated UUIDs (`str(uuid4())`) are explicit `String` arguments.
- A raised Python exception that propagates to the caller is an `Except.error`
  (or an explicit `Bool` flag when the method mutates `self` before or instead
  of raising); an exception swallowed by a `try/except` never surfaces.
- The storage file is part of the state (`LedgerFile` / `RBACFile`), with
  explicit constructors for a missing and for a malformed file.
-/

/-- Python dict lookup `d[k]` as an `Option`: first entry whose key equals `k`. -/
def dictGet? {α : Type} (l : List (String × α)) (k : String) : Option α :=
  (l.find? (fun p => p.1 == k)).map Prod.snd

/-- Python dict assignment `d[k] = v`: replace in place when the key is
present (keeping its position), append otherwise. -/
def dictSet {α : Type} (l : List (String × α)) (k : String) (v : α) :
    List (String × α) :=
  if l.any (fun p => p.1 == k) then
    l.map (fun p => if p.1 == k then (k, v) else p)
  else
    l ++ [(k, v)]

/-- Python `d.values()` in insertion order. -/
def dictValues {α : Type} (l : List (String × α)) : List α :=
  l.map Prod.snd

/-- A role with a set of permissions (`Role` in `src/auth/rbac.py`). -/
structure Role where
  name : String
  permissions : List String
deriving DecidableEq

namespace Permission

/-- Constant `Permission.CREATE_INFRA` from `src/auth/rbac.py`. -/
def CREATE_INFRA : String := "infrastructure:create"

/-- Constant `Permission.READ_INFRA` from `src/auth/rbac.py`. -/
def READ_INFRA : String := "infrastructure:read"

/-- Constant `Permission.UPDATE_INFRA` from `src/auth/rbac.py`. -/
def UPDATE_INFRA : String := "infrastructure:update"

/-- Constant `Permission.DELETE_INFRA` from `src/auth/rbac.py`. -/
def DELETE_INFRA : String := "infrastructure:delete"

/-- Constant `Permission.APPROVE_CHANGES` from `src/auth/rbac.py`. -/
def APPROVE_CHANGES : String := "approvals:approve"

/-- Constant `Permission.REJECT_CHANGES` from `src/auth/rbac.py`. -/
def REJECT_CHANGES : String := "approvals:reject"

/-- Constant `Permission.MANAGE_USERS` from `src/auth/rbac.py`. -/
def MANAGE_USERS : String := "users:manage"

/-- Constant `Permission.MANAGE_ROLES` from `src/auth/rbac.py`. -/
def MANAGE_ROLES : String := "roles:manage"

/-- Constant `Permission.VIEW_AUDIT_LOGS` from `src/auth/rbac.py`. -/
def VIEW_AUDIT_LOGS : String := "system:view_audit_logs"

/-- Constant `Permission.ADMIN_ACCESS` from `src/auth/rbac.py`. -/
def ADMIN_ACCESS : String := "system:admin"

end Permission

/-- The module-level `DEFAULT_ROLES` table of `src/auth/rbac.py`. -/
def DEFAULT_ROLES : List (String × Role) :=
  [("Admin", ⟨"Admin", [Permission.ADMIN_ACCESS, Permission.MANAGE_USERS,
      Permission.MANAGE_ROLES, Permission.VIEW_AUDIT_LOGS]⟩),
   ("Developer", ⟨"Developer", [Permission.CREATE_INFRA, Permission.READ_INFRA,
      Permission.UPDATE_INFRA]⟩),
   ("Auditor", ⟨"Auditor", [Permission.VIEW_AUDIT_LOGS, Permission.READ_INFRA]⟩),
   ("Approver", ⟨"Approver", [Permission.APPROVE_CHANGES, Permission.REJECT_CHANGES]⟩)]

/-- The observable state of one `RBACEngine` (`src/auth/rbac.py`): its role
table and its user→role-set mapping. -/
structure RBACEngine where
  roles : List (String × Role)
  user_roles : List (String × List String)
deriving DecidableEq

/-- Source `RBACEngine.get_user_permissions`: union of the permissions of every role
currently assigned to the user; a role name missing from the role table
contributes nothing. -/
def get_user_permissions (e : RBACEngine) (user_id : String) : List String :=
  let names := (dictGet? e.user_roles user_id).getD []
  names.foldl (fun acc rn =>
    match dictGet? e.roles rn with
    | some role => acc ++ role.permissions
    | none => acc) []

/-- Source `RBACEngine.has_permission`. -/
def has_permission (e : RBACEngine) (user_id : String) (permission : String) :
    Bool :=
  (get_user_permissions e user_id).contains permission

/-- Content of the RBAC state file as seen by `RBACEngine.load_state`:
missing (`FileNotFoundError`), malformed (`json.JSONDecodeError` or
`TypeError` while rebuilding the mapping), or a well-formed
user→role-list mapping. -/
inductive RBACFile where
  | missing : RBACFile
  | malformed : RBACFile
  | content (user_roles : List (String × List String)) : RBACFile
deriving DecidableEq

/-- Source `RBACEngine.load_state`. Returns the engine after the call together with
whether an exception propagated to the caller. The source wraps the whole
body in `try/except`: `FileNotFoundError` is logged as a warning and
`json.JSONDecodeError`/`TypeError` are logged as errors, so no exception ever
propagates and `self.user_roles` is only reassigned on a successful parse. -/
def load_state (e : RBACEngine) (file : RBACFile) : RBACEngine × Bool :=
  match file with
  | .missing => (e, false)
  | .malformed => (e, false)
  | .content m => ({ e with user_roles := m }, false)

/-- One `RBACEngine` instance as allocated by `RBACEngine.__init__`:
`self.roles = roles or DEFAULT_ROLES` either binds a reference to the
caller-supplied table (`ownRoles = some table`) or a reference to the shared
module-level `DEFAULT_ROLES` object (`ownRoles = none`). -/
structure EngineRef where
  ownRoles : Option (List (String × Role))
  user_roles : List (String × List String)
deriving DecidableEq

/-- An `RBACEngine()` constructed without an explicit role table: it aliases the
module-level `DEFAULT_ROLES` dictionary. -/
def mkEngineDefault : EngineRef :=
  { ownRoles := none, user_roles := [] }

/-- A heap of `RBACEngine` instances together with the single module-level
`DEFAULT_ROLES` object they may all alias. -/
structure RBACWorld where
  defaults : List (String × Role)
  engines : List EngineRef
deriving DecidableEq

/-- The role table an engine instance actually reads: its own if one was
supplied at construction, otherwise the shared module-level table. -/
def rolesOf (w : RBACWorld) (e : EngineRef) : List (String × Role) :=
  e.ownRoles.getD w.defaults

/-- Source `RBACEngine.add_role` called on the engine at index `i`: raises
`ValueError` if the name is already present in the table the engine reads,
otherwise writes through the engine's `self.roles` reference — which is the
shared `DEFAULT_ROLES` object when the engine was built without an explicit
table. -/
def add_role (w : RBACWorld) (i : Nat) (role : Role) : Except String RBACWorld :=
  let e := w.engines.getD i mkEngineDefault
  if (dictGet? (rolesOf w e) role.name).isSome then
    .error "Role already exists."
  else
    match e.ownRoles with
    | some own =>
        .ok { w with engines :=
          w.engines.set i { e with ownRoles := some (dictSet own role.name role) } }
    | none =>
        .ok { w with defaults := dictSet w.defaults role.name role }

/-- Enum `ApprovalStatus` from `src/workflows/approval.py`. -/
inductive ApprovalStatus where
  | PENDING : ApprovalStatus
  | APPROVED : ApprovalStatus
  | REJECTED : ApprovalStatus
  | CANCELLED : ApprovalStatus
deriving DecidableEq

/-- The `.value` string of each `ApprovalStatus` member. -/
def ApprovalStatus.value : ApprovalStatus → String
  | .PENDING => "pending"
  | .APPROVED => "approved"
  | .REJECTED => "rejected"
  | .CANCELLED => "cancelled"

/-- The `ApprovalStatus(s)` enum lookup by value; `none` models the `ValueError`
raised on an unknown value. -/
def ApprovalStatus.ofValue (s : String) : Option ApprovalStatus :=
  if s == "pending" then some .PENDING
  else if s == "approved" then some .APPROVED
  else if s == "rejected" then some .REJECTED
  else if s == "cancelled" then some .CANCELLED
  else none

/-- One entry of `ApprovalRequest.comments`. -/
structure CommentEntry where
  user_id : String
  comment : String
deriving DecidableEq

/-- Class `ApprovalRequest` from `src/workflows/approval.py`. `change_details` is an
opaque payload modelled as a string. -/
structure ApprovalRequest where
  id : String
  requester_id : String
  change_summary : String
  change_details : String
  approver_role : String
  status : ApprovalStatus
  created_at : Nat
  updated_at : Nat
  approver_id : Option String
  comments : List CommentEntry
deriving DecidableEq

/-- Constructor `ApprovalRequest.__init__`: `freshId` is the generated `str(uuid4())` and
`now` the construction-time clock reading. -/
def mkApprovalRequest (freshId : String) (now : Nat)
    (requester_id change_summary change_details approver_role : String) :
    ApprovalRequest :=
  { id := freshId
    requester_id := requester_id
    change_summary := change_summary
    change_details := change_details
    approver_role := approver_role
    status := .PENDING
    created_at := now
    updated_at := now
    approver_id := none
    comments := [] }

/-- The serialized form of one request as written by
`ApprovalRequest.to_dict`. -/
structure StoredRequest where
  id : String
  requester_id : String
  change_summary : String
  change_details : String
  approver_role : String
  statusValue : String
  created_at : Nat
  updated_at : Nat
  approver_id : Option String
  comments : List CommentEntry
deriving DecidableEq

/-- Source `ApprovalRequest.to_dict`. -/
def to_dict (r : ApprovalRequest) : StoredRequest :=
  { id := r.id
    requester_id := r.requester_id
    change_summary := r.change_summary
    change_details := r.change_details
    approver_role := r.approver_role
    statusValue := r.status.value
    created_at := r.created_at
    updated_at := r.updated_at
    approver_id := r.approver_id
    comments := r.comments }

/-- Content of the approval ledger file: missing (`FileNotFoundError`),
corrupt (`json.JSONDecodeError`), or a well-formed id→record mapping. -/
inductive LedgerFile where
  | missing : LedgerFile
  | corrupt : LedgerFile
  | content (data : List (String × StoredRequest)) : LedgerFile
deriving DecidableEq

/-- The ledger as written by `ApprovalWorkflow._save_requests`. -/
def serializeLedger (reqs : List (String × ApprovalRequest)) :
    List (String × StoredRequest) :=
  reqs.map (fun p => (p.1, to_dict p.2))

/-- The state of one `ApprovalWorkflow`: its in-memory request dict and the
current content of its storage file. -/
structure WorkflowState where
  requests : List (String × ApprovalRequest)
  storage : LedgerFile
deriving DecidableEq

/-- One iteration of the loop in `ApprovalWorkflow._load_requests`: rebuild
the request through `ApprovalRequest.__init__` (which stamps `created_at` and
`updated_at` with the load-time clock `now` and leaves `approver_id = None`,
`comments = []`, `approver_role = "Approver"`), then overwrite only `id` and
`status`; the trailing `# ... (load other fields)` comment in the source is
not followed by any code. An unknown status string raises `ValueError`, which
the surrounding `except (FileNotFoundError, json.JSONDecodeError)` does not
catch. -/
def loadRecord (now : Nat) (p : String × StoredRequest) :
    Except String (String × ApprovalRequest) :=
  match ApprovalStatus.ofValue p.2.statusValue with
  | none => .error "ValueError: invalid ApprovalStatus value"
  | some st =>
      .ok (p.1,
        { mkApprovalRequest p.1 now p.2.requester_id p.2.change_summary
            p.2.change_details "Approver" with
          id := p.1
          status := st })

/-- Source `ApprovalWorkflow._load_requests`: a missing or corrupt file yields the
empty dict; otherwise every record is rebuilt by `loadRecord`. -/
def loadRequests (now : Nat) (file : LedgerFile) :
    Except String (List (String × ApprovalRequest)) :=
  match file with
  | .missing => .ok []
  | .corrupt => .ok []
  | .content data => data.mapM (loadRecord now)

/-- Constructor `ApprovalWorkflow.__init__` for a given storage-file content: the request
dict is loaded from the file, the file itself is left as is. -/
def mkWorkflow (now : Nat) (file : LedgerFile) : Except String WorkflowState :=
  (loadRequests now file).map (fun reqs => { requests := reqs, storage := file })

/-- Python truthiness of the optional `comment` argument: `None` and the
empty string are falsy. -/
def pyTruthy (c : Option String) : Bool :=
  c.getD "" != ""

/-- The exceptions `ApprovalWorkflow.approve_request` can raise. -/
inductive WorkflowError where
  | valueError : WorkflowError
  | permissionError : WorkflowError
deriving DecidableEq

/-- Source `ApprovalWorkflow.create_request`: unconditionally assigns
`self.requests[request.id] = request`, then `_save_requests` rewrites the
storage file. There is no duplicate check and no error path. -/
def create_request (s : WorkflowState) (request : ApprovalRequest) :
    WorkflowState :=
  let requests' := dictSet s.requests request.id request
  { requests := requests', storage := .content (serializeLedger requests') }

/-- Source `ApprovalWorkflow.approve_request`. Raises `ValueError` for an unknown id
and `PermissionError` when the approver lacks `Permission.APPROVE_CHANGES`;
both raises happen before any mutation, so the state component is unchanged
on error. On the success path it sets status/approver/updated_at, appends the
comment only when it is truthy, and rewrites the storage file. The current
status of the request is never examined. -/
def approve_request (e : RBACEngine) (s : WorkflowState)
    (request_id approver_id : String) (comment : Option String) (now : Nat) :
    WorkflowState × Except WorkflowError Unit :=
  match dictGet? s.requests request_id with
  | none => (s, .error .valueError)
  | some request =>
      if has_permission e approver_id Permission.APPROVE_CHANGES = false then
        (s, .error .permissionError)
      else
        let request' : ApprovalRequest :=
          { request with
            status := .APPROVED
            approver_id := some approver_id
            updated_at := now
            comments := request.comments ++
              (if pyTruthy comment then
                [{ user_id := approver_id, comment := comment.getD "" }]
              else []) }
        let requests' := dictSet s.requests request_id request'
        ({ requests := requests', storage := .content (serializeLedger requests') },
         .ok ())

/-- Source `ApprovalWorkflow.list_pending_requests`: the records it displays, i.e.
`self.requests.values()` filtered to `status == PENDING`, in dict insertion
order. The source only reads state (and prints a table, returning `None`). -/
def list_pending_requests (s : WorkflowState) : List ApprovalRequest :=
  (dictValues s.requests).filter (fun req => req.status == ApprovalStatus.PENDING)

/-- Workflow states reachable through the workflow's own mutating operations,
starting from a fresh instance on a missing storage file: `create_request` on
a newly constructed `ApprovalRequest`, and `approve_request`. -/
inductive Reachable (e : RBACEngine) : WorkflowState → Prop where
  | init : Reachable e { requests := [], storage := .missing }
  | create (s : WorkflowState) (fid : String) (now : Nat)
      (requester summary details role_name : String) (h : Reachable e s) :
      Reachable e (create_request s
        (mkApprovalRequest fid now requester summary details role_name))
  | approve (s : WorkflowState) (rid aid : String) (c : Option String)
      (now : Nat) (h : Reachable e s) :
      Reachable e (approve_request e s rid aid c now).1

/-- An engine seeded with the default roles where user `alice` holds the
`Approver` role. -/
def engineEx : RBACEngine :=
  { roles := DEFAULT_ROLES, user_roles := [("alice", ["Approver"])] }

/-- An engine seeded with the default roles and no role assignments at all. -/
def engineNoRoles : RBACEngine :=
  { roles := DEFAULT_ROLES, user_roles := [] }

/-- A concrete request created by `bob` at time 3 with generated id `r1`. -/
def reqEx : ApprovalRequest :=
  mkApprovalRequest "r1" 3 "bob" "add subnet" "details" "Approver"

/-- A fresh workflow instance started on a missing storage file. -/
def sEx0 : WorkflowState :=
  { requests := [], storage := LedgerFile.missing }

/-- The workflow after `create_request(reqEx)`. -/
def sEx1 : WorkflowState :=
  create_request sEx0 reqEx

/-- The workflow after `alice` then approves `r1` at time 4 with a comment. -/
def sEx2 : WorkflowState :=
  (approve_request engineEx sEx1 "r1" "alice" (some "looks good") 4).1

/-- The record stored under `r1` in `sEx2`. -/
def reqApproved : ApprovalRequest :=
  { reqEx with
    status := .APPROVED
    approver_id := some "alice"
    updated_at := 4
    comments := [{ user_id := "alice", comment := "looks good" }] }

/-- After replacing the entry for `k` in a list known to contain it, `find?`
on `k` returns the replacement. -/
theorem find?_map_replace {α : Type} (k : String) (v : α) :
    ∀ l : List (String × α), l.any (fun p => p.1 == k) = true →
      (l.map (fun p => if p.1 == k then (k, v) else p)).find?
        (fun p => p.1 == k) = some (k, v) := by
  intro l
  induction l with
  | nil => intro h; simp at h
  | cons hd tl ih =>
    intro h
    by_cases hk : (hd.1 == k) = true
    · rw [List.map_cons, if_pos hk]
      exact List.find?_cons_of_pos _ (by simp)
    · rw [List.map_cons, if_neg hk, List.find?_cons_of_neg _ (by simpa using hk)]
      refine ih ?_
      simpa [hk] using h

/-- Looking up a key right after `dictSet` on that key yields the new value,
in both the replace and the append branch. -/
theorem dictGet?_dictSet_self {α : Type} (l : List (String × α)) (k : String)
    (v : α) : dictGet? (dictSet l k v) k = some v := by
  unfold dictGet? dictSet
  split
  case isTrue h => rw [find?_map_replace k v l h]; rfl
  case isFalse h =>
    have hnone : l.find? (fun p => p.1 == k) = none := by
      rw [List.find?_eq_none]
      intro p hp hpk
      exact h (List.any_eq_true.mpr ⟨p, hp, hpk⟩)
    rw [List.find?_append, hnone]
    simp [List.find?]

/-- Every value of the dict after `dictSet` is either the newly written value
or a value that was already present. -/
theorem mem_dictValues_dictSet {α : Type} {a : α} {l : List (String × α)}
    {k : String} {v : α} (h : a ∈ dictValues (dictSet l k v)) :
    a = v ∨ a ∈ dictValues l := by
  simp only [dictValues, dictSet] at h ⊢
  split at h
  case isTrue hc =>
    rcases List.mem_map.1 h with ⟨x, hx, rfl⟩
    rcases List.mem_map.1 hx with ⟨q, hq, rfl⟩
    by_cases hk : (q.1 == k) = true
    · rw [if_pos hk]; left; rfl
    · rw [if_neg hk]
      right
      exact List.mem_map.2 ⟨q, hq, rfl⟩
  case isFalse hc =>
    rw [List.map_append] at h
    rcases List.mem_append.1 h with h1 | h1
    · right; exact h1
    · left; simpa using h1

/-- The approver-id invariant of the spec's data model: `approver_id` is set
if and only if the status is `approved` or `rejected`. -/
def ApproverInv (s : WorkflowState) : Prop :=
  ∀ r ∈ dictValues s.requests,
    (r.approver_id ≠ none ↔
      (r.status = ApprovalStatus.APPROVED ∨ r.status = ApprovalStatus.REJECTED))

/-- C2: the Approval Workflow has no rejection operation at all — no state
reachable through its mutating operations contains a request with status
`rejected`. The source declares `ApprovalStatus.REJECTED`,
`Permission.REJECT_CHANGES` and the `INFRA_CHANGE_REJECTED` audit event but
defines no `reject_request` method that would use them. -/
theorem workflow_never_rejects (e : RBACEngine) (s : WorkflowState)
    (h : Reachable e s) :
    ∀ r ∈ dictValues s.requests, r.status ≠ ApprovalStatus.REJECTED := by
  induction h with
  | init => intro r hr; simp [dictValues] at hr
  | create s fid now requester summary details role_name hs ih =>
    intro r hr
    simp only [create_request] at hr
    rcases mem_dictValues_dictSet hr with rfl | hmem
    · simp [mkApprovalRequest]
    · exact ih r hmem
  | approve s rid aid c now hs ih =>
    intro r hr
    simp only [approve_request] at hr
    rcases hfind : dictGet? s.requests rid with _ | request
    · rw [hfind] at hr; exact ih r hr
    · rw [hfind] at hr
      dsimp only at hr
      by_cases hperm : has_permission e aid Permission.APPROVE_CHANGES = false
      · rw [if_pos hperm] at hr; exact ih r hr
      · rw [if_neg hperm] at hr
        rcases mem_dictValues_dictSet hr with rfl | hmem
        · simp
        · exact ih r hmem

/-- C5 (amended): in every state reachable through `create_request` and
`approve_request` from a fresh instance, `approver_id` is non-null iff the
status is `approved` or `rejected`. (Loading the ledger from storage is not
among these operations: `_load_requests` drops `approver_id`, so a loaded
approved record violates the invariant.) -/
theorem reachable_approver_inv (e : RBACEngine) (s : WorkflowState)
    (h : Reachable e s) : ApproverInv s := by
  induction h with
  | init => intro r hr; simp [dictValues] at hr
  | create s fid now requester summary details role_name hs ih =>
    intro r hr
    simp only [create_request] at hr
    rcases mem_dictValues_dictSet hr with rfl | hmem
    · simp [mkApprovalRequest]
    · exact ih r hmem
  | approve s rid aid c now hs ih =>
    intro r hr
    simp only [approve_request] at hr
    rcases hfind : dictGet? s.requests rid with _ | request
    · rw [hfind] at hr; exact ih r hr
    · rw [hfind] at hr
      dsimp only at hr
      by_cases hperm : has_permission e aid Permission.APPROVE_CHANGES = false
      · rw [if_pos hperm] at hr; exact ih r hr
      · rw [if_neg hperm] at hr
        rcases mem_dictValues_dictSet hr with rfl | hmem
        · simp
        · exact ih r hmem

/-- C1 (counterexample): in `sEx2` the request `r1` is already `approved`
(with `updated_at = 4`); a second `approve_request` call on it succeeds
(`Except.ok`, not an invalid-transition error) and advances `updated_at`
to 7, so the record is not left unchanged. -/
theorem approve_twice_second_call_succeeds :
    (approve_request engineEx sEx2 "r1" "alice" none 7).2 = Except.ok () ∧
    (dictGet? (approve_request engineEx sEx2 "r1" "alice" none 7).1.requests
      "r1").map ApprovalRequest.updated_at = some 7 ∧
    (dictGet? sEx2.requests "r1").map ApprovalRequest.updated_at = some 4 :=
  ⟨rfl, by decide, by decide⟩

/-- C1 (amended): `approve_request` never examines the current status. For
every record present under the given id — already approved or not — a call by
an approver holding `approvals:approve` succeeds and re-sets the status to
`approved`, sets `approver_id` to the caller and `updated_at` to the call
time. -/
theorem approve_request_ignores_status (e : RBACEngine) (s : WorkflowState)
    (rid aid : String) (r : ApprovalRequest) (c : Option String) (now : Nat)
    (hfind : dictGet? s.requests rid = some r)
    (hperm : has_permission e aid Permission.APPROVE_CHANGES = true) :
    (approve_request e s rid aid c now).2 = Except.ok () ∧
    (dictGet? (approve_request e s rid aid c now).1.requests rid).map
      (fun r2 => (r2.status, r2.approver_id, r2.updated_at)) =
      some (ApprovalStatus.APPROVED, some aid, now) := by
  unfold approve_request
  rw [hfind]
  dsimp only
  rw [if_neg (by simp [hperm])]
  exact ⟨rfl, by rw [dictGet?_dictSet_self]; rfl⟩

/-- C1 (witness): the amended theorem applied to the already-approved record
`r1` of `sEx2`. -/
theorem approve_request_ignores_status_witness :
    (approve_request engineEx sEx2 "r1" "alice" none 7).2 = Except.ok () ∧
    (dictGet? (approve_request engineEx sEx2 "r1" "alice" none 7).1.requests
      "r1").map (fun r2 => (r2.status, r2.approver_id, r2.updated_at)) =
      some (ApprovalStatus.APPROVED, some "alice", 7) :=
  approve_request_ignores_status engineEx sEx2 "r1" "alice" reqApproved none 7
    (by decide) (by decide)

/-- C3: `approve_request` by an actor lacking the `approvals:approve`
permission fails with `PermissionError` and leaves the whole workflow state —
the record and the persisted ledger — exactly as it was. -/
theorem approve_request_permission_denied_unchanged (e : RBACEngine)
    (s : WorkflowState) (rid aid : String) (r : ApprovalRequest)
    (c : Option String) (now : Nat)
    (hfind : dictGet? s.requests rid = some r)
    (_hpending : r.status = ApprovalStatus.PENDING)
    (hperm : has_permission e aid Permission.APPROVE_CHANGES = false) :
    approve_request e s rid aid c now =
      (s, Except.error WorkflowError.permissionError) := by
  unfold approve_request
  rw [hfind]
  dsimp only
  rw [if_pos hperm]

/-- C3 (witness): `bob`, holding no role, cannot approve the pending request
`r1` of `sEx1`, and the state is unchanged. -/
theorem approve_request_permission_denied_unchanged_witness :
    approve_request engineNoRoles sEx1 "r1" "bob" none 5 =
      (sEx1, Except.error WorkflowError.permissionError) :=
  approve_request_permission_denied_unchanged engineNoRoles sEx1 "r1" "bob"
    reqEx none 5 (by decide) (by decide) (by decide)

/-- C10: an explicit empty-string comment is falsy in the source's
`if comment:` guard, so approving with `comment = ""` records no comment
entry while the transition to `approved` still takes place. -/
theorem approve_request_empty_comment_not_recorded (e : RBACEngine)
    (s : WorkflowState) (rid aid : String) (r : ApprovalRequest) (now : Nat)
    (hfind : dictGet? s.requests rid = some r)
    (_hpending : r.status = ApprovalStatus.PENDING)
    (hperm : has_permission e aid Permission.APPROVE_CHANGES = true) :
    (approve_request e s rid aid (some "") now).2 = Except.ok () ∧
    (dictGet? (approve_request e s rid aid (some "") now).1.requests rid).map
      (fun r2 => (r2.status, r2.comments)) =
      some (ApprovalStatus.APPROVED, r.comments) := by
  unfold approve_request
  rw [hfind]
  dsimp only
  rw [if_neg (by simp [hperm])]
  refine ⟨rfl, ?_⟩
  rw [dictGet?_dictSet_self]
  simp [pyTruthy]

/-- C10 (witness): approving the pending `r1` of `sEx1` with an empty-string
comment leaves its comment list empty. -/
theorem approve_request_empty_comment_not_recorded_witness :
    (approve_request engineEx sEx1 "r1" "alice" (some "") 4).2 = Except.ok () ∧
    (dictGet? (approve_request engineEx sEx1 "r1" "alice" (some "") 4).1.requests
      "r1").map (fun r2 => (r2.status, r2.comments)) =
      some (ApprovalStatus.APPROVED, reqEx.comments) :=
  approve_request_empty_comment_not_recorded engineEx sEx1 "r1" "alice" reqEx 4
    (by decide) (by decide) (by decide)

/-- C2 (witness): the no-reject theorem applied to the concrete reachable
state `sEx1` and its request `reqEx`. -/
theorem workflow_never_rejects_witness :
    reqEx.status ≠ ApprovalStatus.REJECTED :=
  workflow_never_rejects engineEx sEx1
    (Reachable.create sEx0 "r1" 3 "bob" "add subnet" "details" "Approver"
      Reachable.init)
    reqEx (by decide)

/-- C5 (witness of the amended theorem): the invariant instantiated at the
reachable state `sEx2` and its approved record. -/
theorem reachable_approver_inv_witness :
    reqApproved.approver_id ≠ none ↔
      (reqApproved.status = ApprovalStatus.APPROVED ∨
        reqApproved.status = ApprovalStatus.REJECTED) :=
  reachable_approver_inv engineEx sEx2
    (Reachable.approve sEx1 "r1" "alice" (some "looks good") 4
      (Reachable.create sEx0 "r1" 3 "bob" "add subnet" "details" "Approver"
        Reachable.init))
    reqApproved (by decide)

/-- The fresh workflow obtained by reloading `sEx1`'s persisted ledger at
time 9. -/
def freshEx : WorkflowState :=
  (mkWorkflow 9 sEx1.storage).toOption.getD sEx0

/-- C4: reloading the ledger persisted by `sEx1` (one pending request created
at time 3) into a fresh instance at time 9 keeps the id, requester and
summary of the pending request but re-stamps its creation time to 9 — the
persisted `created_at` is discarded by `_load_requests`. -/
theorem roundtrip_restamps_created_at :
    (mkWorkflow 9 sEx1.storage).toOption = some freshEx ∧
    (list_pending_requests freshEx).map
      (fun r => (r.id, r.requester_id, r.change_summary, r.created_at)) =
      [("r1", "bob", "add subnet", 9)] ∧
    (list_pending_requests sEx1).map
      (fun r => (r.id, r.requester_id, r.change_summary, r.created_at)) =
      [("r1", "bob", "add subnet", 3)] := by
  refine ⟨rfl, by decide, by decide⟩

/-- The fresh workflow obtained by reloading `sEx2`'s persisted ledger
(holding an approved record with `approver_id = "alice"`) at time 9. -/
def freshEx2 : WorkflowState :=
  (mkWorkflow 9 sEx2.storage).toOption.getD sEx0

/-- The record reloaded under `r1` in `freshEx2`. -/
def loadedEx : ApprovalRequest :=
  (dictGet? freshEx2.requests "r1").getD reqEx

/-- C5 (counterexample): loading a ledger that holds an approved record —
itself produced by the workflow's own save — yields a request whose status is
`approved` but whose `approver_id` is `none`, violating the claimed
iff-invariant. -/
theorem loaded_approved_request_has_no_approver :
    (mkWorkflow 9 sEx2.storage).toOption = some freshEx2 ∧
    dictGet? freshEx2.requests "r1" = some loadedEx ∧
    loadedEx.status = ApprovalStatus.APPROVED ∧
    loadedEx.approver_id = none ∧
    ¬ (loadedEx.approver_id ≠ none ↔
        (loadedEx.status = ApprovalStatus.APPROVED ∨
          loadedEx.status = ApprovalStatus.REJECTED)) := by
  refine ⟨rfl, by decide, by decide, by decide, by decide⟩

/-- C6 (counterexample): `load_state` on a file that exists but is malformed
does not fail — the parse exception is caught and only logged, so the call
returns normally (`false` = no exception propagated), with the prior mapping
kept. -/
theorem load_state_malformed_does_not_raise :
    load_state engineEx RBACFile.malformed = (engineEx, false) := rfl

/-- C6 (amended): for every prior in-memory mapping, `load_state` on a
malformed file leaves the engine — in particular its `user_roles` — exactly
as it was and raises nothing; the failure is only logged. -/
theorem load_state_malformed_keeps_prior_state (e : RBACEngine) :
    load_state e RBACFile.malformed = (e, false) := rfl

/-- A second request carrying the same id `r1` as `reqEx`. -/
def reqDup : ApprovalRequest :=
  mkApprovalRequest "r1" 8 "carol" "conflicting change" "details2" "Approver"

/-- C7 (counterexample): `create_request` of a second request with the id
`r1` already present in `sEx1` raises no duplicate error and replaces the
existing record: afterwards the ledger holds `reqDup`, not `reqEx`, under
`r1`. -/
theorem create_request_overwrites_duplicate :
    dictGet? sEx1.requests "r1" = some reqEx ∧
    dictGet? (create_request sEx1 reqDup).requests "r1" = some reqDup ∧
    reqDup ≠ reqEx := by
  refine ⟨by decide, by decide, by decide⟩

/-- C7 (amended): `create_request` never fails. It unconditionally stores the
request under its id — overwriting any existing record with that id — and
persists the resulting ledger. -/
theorem create_request_always_inserts (s : WorkflowState)
    (request : ApprovalRequest) :
    dictGet? (create_request s request).requests request.id = some request ∧
    (create_request s request).storage =
      LedgerFile.content (serializeLedger (create_request s request).requests) := by
  unfold create_request
  exact ⟨dictGet?_dictSet_self _ _ _, rfl⟩

/-- A request constructed at time 5 but registered first. -/
def reqLate : ApprovalRequest :=
  mkApprovalRequest "a" 5 "bob" "registered first" "d" "Approver"

/-- A request constructed at time 3 but registered second. -/
def reqEarly : ApprovalRequest :=
  mkApprovalRequest "b" 3 "carol" "registered second" "d" "Approver"

/-- A ledger whose dict insertion order disagrees with creation-time order. -/
def sOrder : WorkflowState :=
  create_request (create_request sEx0 reqLate) reqEarly

/-- C8 (counterexample): on `sOrder` the pending records are produced in dict
insertion order, with creation times `[5, 3]` — not ascending, so the output
is not ordered by creation time. -/
theorem list_pending_not_sorted_by_creation :
    (list_pending_requests sOrder).map ApprovalRequest.created_at = [5, 3] ∧
    ¬ List.Pairwise (fun a b => a ≤ b)
        ((list_pending_requests sOrder).map ApprovalRequest.created_at) := by
  refine ⟨by decide, ?_⟩
  rw [(by decide :
    (list_pending_requests sOrder).map ApprovalRequest.created_at = [5, 3])]
  intro hp
  have h53 : (5 : Nat) ≤ 3 := List.rel_of_pairwise_cons hp (List.mem_singleton.mpr rfl)
  omega

/-- C8 (amended): `list_pending_requests` reads the state only; the records
it displays are exactly those with status `pending`, in dict insertion order
(a sublist of `requests.values()`), not sorted by creation time, and nothing
is returned to the caller. -/
theorem list_pending_requests_filter_insertion_order (s : WorkflowState) :
    List.Sublist (list_pending_requests s) (dictValues s.requests) ∧
    ∀ r : ApprovalRequest,
      r ∈ list_pending_requests s ↔
        (r ∈ dictValues s.requests ∧ r.status = ApprovalStatus.PENDING) := by
  constructor
  · exact List.filter_sublist _
  · intro r
    simp [list_pending_requests, List.mem_filter]

/-- C9: for a world whose engines at indices `i` and `j` were both built
without an explicit role table (so both alias the module-level
`DEFAULT_ROLES` object), `add_role` on engine `i` with a fresh role name
succeeds by mutating the shared table — and the role is then present in
engine `j`'s role table as well. -/
theorem add_role_leaks_to_other_default_engine (w : RBACWorld) (i j : Nat)
    (role : Role)
    (hi : (w.engines.getD i mkEngineDefault).ownRoles = none)
    (hj : (w.engines.getD j mkEngineDefault).ownRoles = none)
    (hfresh : dictGet? w.defaults role.name = none) :
    add_role w i role =
      Except.ok { w with defaults := dictSet w.defaults role.name role } ∧
    dictGet?
      (rolesOf { w with defaults := dictSet w.defaults role.name role }
        ({ w with defaults := dictSet w.defaults role.name role }.engines.getD j
          mkEngineDefault))
      role.name = some role := by
  constructor
  · simp only [add_role, rolesOf, hi, Option.getD_none]
    rw [if_neg (by simp [hfresh])]
  · rw [show ({ w with defaults := dictSet w.defaults role.name role } :
        RBACWorld).engines = w.engines from rfl]
    simp only [rolesOf, hj, Option.getD_none]
    exact dictGet?_dictSet_self _ _ _

/-- A world holding two engines both constructed as `RBACEngine()`. -/
def wTwo : RBACWorld :=
  { defaults := DEFAULT_ROLES, engines := [mkEngineDefault, mkEngineDefault] }

/-- A role whose name is not among the default roles. -/
def opRole : Role :=
  { name := "Operator", permissions := [Permission.READ_INFRA] }

/-- C9 (witness): adding `Operator` through engine 0 of `wTwo` makes it
visible in engine 1's role table. -/
theorem add_role_leaks_to_other_default_engine_witness :
    add_role wTwo 0 opRole =
      Except.ok { wTwo with defaults := dictSet wTwo.defaults opRole.name opRole } ∧
    dictGet?
      (rolesOf { wTwo with defaults := dictSet wTwo.defaults opRole.name opRole }
        ({ wTwo with defaults := dictSet wTwo.defaults opRole.name opRole }.engines.getD 1
          mkEngineDefault))
      opRole.name = some opRole :=
  add_role_leaks_to_other_default_engine wTwo 0 1 opRole rfl rfl (by decide)

/-- C6 (witness): the amended theorem applied to a concrete prior mapping. -/
theorem load_state_malformed_keeps_prior_state_witness :
    load_state engineNoRoles RBACFile.malformed = (engineNoRoles, false) :=
  load_state_malformed_keeps_prior_state engineNoRoles

/-- C7 (witness): the amended theorem applied to `sEx1` and the duplicate-id
request `reqDup`. -/
theorem create_request_always_inserts_witness :
    dictGet? (create_request sEx1 reqDup).requests reqDup.id = some reqDup ∧
    (create_request sEx1 reqDup).storage =
      LedgerFile.content (serializeLedger (create_request sEx1 reqDup).requests) :=
  create_request_always_inserts sEx1 reqDup

/-- C8 (witness): the amended characterization instantiated at `sOrder` and
the request `reqEarly`. -/
theorem list_pending_requests_filter_insertion_order_witness :
    reqEarly ∈ list_pending_requests sOrder ↔
      (reqEarly ∈ dictValues sOrder.requests ∧
        reqEarly.status = ApprovalStatus.PENDING) :=
  (list_pending_requests_filter_insertion_order sOrder).2 reqEarly
